import Mathlib

/-!
Verification development for the stock-analysis-agent repository.

The Python sources are shallowly embedded: pure functions become Lean
functions; interactions with the outside world (HTTP responses, the
Firestore document store, the filesystem, the wrapped async generator)
become explicit parameters or state values.  Python dictionaries are
modelled as association lists, Python values by the inductive `PyVal`.
-/

namespace StockAgent

/-- PyVal models the Python/JSON values that flow through the program.
Numbers are kept as their source lexeme (`pnum "1.5"`): no claim in this
development depends on float arithmetic, and two runs over the same input
text always see the same lexeme. -/
inductive PyVal where
  | pnull : PyVal
  | pbool : Bool → PyVal
  | pnum : String → PyVal
  | pstr : String → PyVal
  | plist : List PyVal → PyVal
  | pdict : List (String × PyVal) → PyVal

/-- assocLookup models Python `dict.get` / `in` on an association list
(first binding wins; the embedding keeps dictionaries duplicate-free). -/
def assocLookup (k : String) : List (String × PyVal) → Option PyVal
  | [] => none
  | kv :: rest => if kv.1 = k then some kv.2 else assocLookup k rest

/-- strLookup is `assocLookup` for string-valued maps (environment, model cache). -/
def strLookup (k : String) : List (String × String) → Option String
  | [] => none
  | kv :: rest => if kv.1 = k then some kv.2 else strLookup k rest

/-! ## sub_agents/utils/fmp_api_client.py -/

/-- HttpOutcome models what `requests.get` did for one call: a response
with a status code and the result of `response.json()` (which can itself
fail on a non-JSON body), or a raised `requests.exceptions.RequestException`. -/
inductive HttpOutcome where
  | resp : Nat → Except String PyVal → HttpOutcome
  | netError : String → HttpOutcome

/-- make_fmp_api_request, from sub_agents/utils/fmp_api_client.py.
The second component records the HTTP GET that was performed, if any:
`some (url-endpoint, params-with-apikey)`, or `none` when the function
returned before issuing a request.  The key check mirrors
`if not api_key:` (None or empty string are both falsy). -/
def make_fmp_api_request (env : List (String × String)) (http : HttpOutcome)
    (endpoint : String) (params : List (String × PyVal)) :
    PyVal × Option (String × List (String × PyVal)) :=
  match strLookup "FMP_API_KEY" env with
  | none => (.pdict [("error", .pstr "FMP_API_KEY environment variable not set")], none)
  | some key =>
    if key = "" then
      (.pdict [("error", .pstr "FMP_API_KEY environment variable not set")], none)
    else
      let req := some (endpoint, params ++ [("apikey", .pstr key)])
      match http with
      | .resp 200 (.ok body) => (body, req)
      | .resp 200 (.error m) => (.pdict [("error", .pstr ("Unexpected error: " ++ m))], req)
      | .resp st _ => (.pdict [("error", .pstr ("Failed to fetch data: " ++ toString st))], req)
      | .netError m => (.pdict [("error", .pstr ("Request failed: " ++ m))], req)

/-- fmp_balance_sheet, from sub_agents/balance_sheet_analyst/tools/fmp_balance_sheet.py:
builds the parameter dict and returns make_fmp_api_request unchanged (every
fmp_* tool wrapper in the repository has exactly this shape). -/
def fmp_balance_sheet (env : List (String × String)) (http : HttpOutcome)
    (ticker : String) (limit : Int) (period : String) :
    PyVal × Option (String × List (String × PyVal)) :=
  make_fmp_api_request env http "balance-sheet-statement"
    [("symbol", .pstr ticker), ("limit", .pnum (toString limit)), ("period", .pstr period)]

/-- hasErrorKey decides whether a returned value is a dictionary containing
an "error" key. -/
def hasErrorKey (v : PyVal) : Bool :=
  match v with
  | .pdict kvs => kvs.any (fun kv => kv.1 = "error")
  | _ => false

/-! ## sub_agents/intrinsic_value_analyst/tools/gurufocus_dcf_valuation.py -/

/-- GuruNuxt models what the two `re.search` calls over the NUXT script text
found: the lexeme captured by `price:(\d+\.?\d*),` and the lexeme captured by
`iv_dcEarning:(-?\d+\.?\d*|a),` (the literal "a" meaning N/A), if any. -/
structure GuruNuxt where
  priceTok : Option String
  ivTok : Option String
deriving DecidableEq, Repr

/-- GuruPage models a fetched GuruFocus page: HTTP status, whether the
low-predictability warning span is present, and the NUXT script data if the
`window.__NUXT__=` script tag exists. -/
structure GuruPage where
  status : Nat
  lowPredWarning : Bool
  nuxt : Option GuruNuxt
deriving DecidableEq, Repr

/-- GuruOutcome: the page request either raised a
`requests.exceptions.RequestException` or produced a page. -/
inductive GuruOutcome where
  | netError : String → GuruOutcome
  | page : GuruPage → GuruOutcome
deriving DecidableEq, Repr

/-- guruSuccessJson stands for the `json.dumps(result, indent=2)` string built
on the success path.  The float re-formatting of price / fair value / margin
of safety (`f"$ {v:.2f}"` etc.) is floating-point arithmetic and is outside
the embedding; the string is assembled from the raw captured lexemes.  No
claim in this development depends on its exact contents, only on the fact
that the success path returns a string, not a dict and not None. -/
def guruSuccessJson (ticker priceTok : String) (ivTok : Option String)
    (lowPred : Bool) : String :=
  let fv := match ivTok with
    | some t => if t = "a" then "N/A" else t
    | none => "N/A"
  "\x7b ticker: " ++ ticker ++ ", stock_price: " ++ priceTok ++ ", fair_value: " ++ fv
    ++ ", low_predictability: " ++ (if lowPred then "true" else "false") ++ " \x7d"

/-- gurufocus_dcf, from gurufocus_dcf_valuation.py.  Control flow of the
source: a RequestException (which includes the HTTPError raised by
`response.raise_for_status()` on a 4xx/5xx status) is caught, printed, and
the function falls off the end, returning Python None; a missing NUXT
script or an unmatched stock price also `return` with no value (None);
only the fully successful path returns the `json.dumps` string. -/
def gurufocus_dcf (ticker : String) (o : GuruOutcome) : PyVal :=
  match o with
  | .netError _ => .pnull
  | .page p =>
    if 400 ≤ p.status then .pnull
    else
      match p.nuxt with
      | none => .pnull
      | some nx =>
        match nx.priceTok with
        | none => .pnull
        | some pr => .pstr (guruSuccessJson ticker pr nx.ivTok p.lowPredWarning)

/-! ## engine_utils/tracing_utils.py — TracingSafeAsyncGenerator -/

/-- GenStep models what the wrapped generator's `__anext__` does when it is
awaited once: yield a value, raise StopAsyncIteration (normal end), raise
GeneratorExit (abrupt client disconnect), or raise some other exception. -/
inductive GenStep (α : Type) where
  | yields : α → GenStep α
  | stopAsyncIter : GenStep α
  | genExit : GenStep α
  | failure : String → GenStep α
deriving DecidableEq, Repr

/-- AnextOut models the observable outcome of the wrapper's `__anext__`:
a value, or one of the exceptions it can let escape. -/
inductive AnextOut (α : Type) where
  | value : α → AnextOut α
  | raisesStopAsync : AnextOut α
  | raisesGenExit : AnextOut α
  | raisesExc : String → AnextOut α
deriving DecidableEq, Repr

/-- SafeGen models the wrapper's mutable state: its `_closed` flag and
whether `aclose()` has been called on the wrapped generator. -/
structure SafeGen where
  closed : Bool
  underClosed : Bool
deriving DecidableEq, Repr

/-- safeAclose models `TracingSafeAsyncGenerator._safe_aclose`: if already
closed it is a no-op, otherwise it marks the wrapper closed and closes the
wrapped generator (context-token detach carries no state we track). -/
def safeAclose (w : SafeGen) : SafeGen :=
  if w.closed then w else { closed := true, underClosed := true }

/-- anext models `TracingSafeAsyncGenerator.__anext__`.  `step` is what the
wrapped generator would do if awaited; the third component records whether
the wrapped generator's `__anext__` was actually awaited.  Note that the
`raise StopAsyncIteration` for an already-closed wrapper sits inside the
`try`, is caught by `except Exception`, and is re-raised after the
(no-op) `_safe_aclose`. -/
def anext {α : Type} (w : SafeGen) (step : GenStep α) : AnextOut α × SafeGen × Bool :=
  if w.closed then
    (.raisesStopAsync, safeAclose w, false)
  else
    match step with
    | .yields a => (.value a, w, true)
    | .stopAsyncIter => (.raisesStopAsync, safeAclose w, true)
    | .genExit => (.raisesStopAsync, safeAclose w, true)
    | .failure m => (.raisesExc m, safeAclose w, true)

/-! ## app/agent_result_storage.py — AgentResultStorage -/

/-- isWordDash models the character class `[\w\-_]` of
`re.sub(r'[^\w\-_]', '_', ...)` over the ASCII range (`\w` = alphanumerics
plus underscore).  Python's `\w` additionally matches non-ASCII letters and
digits; like the ASCII word characters those are never path separators or
dots, so the safety statements below are unaffected, and every concrete
input in this development is ASCII. -/
def isWordDash (c : Char) : Bool :=
  c.isAlphanum || c = '_' || c = '-'

/-- sanitizeComponent models `re.sub(r'[^\w\-_]', '_', s)`: every character
outside the class is replaced by an underscore. -/
def sanitizeComponent (s : String) : String :=
  String.mk (s.data.map (fun c => if isWordDash c then c else '_'))

/-- getFolderPath models `AgentResultStorage._get_folder_path` with the
default `base_dir="results"` of the module-level instance; a filesystem path
is modelled as its list of components. -/
def getFolderPath (userId sessionId stockSymbol : String) : List String :=
  ["results", "user_" ++ sanitizeComponent userId,
   "session_" ++ sanitizeComponent sessionId ++ "_" ++ sanitizeComponent stockSymbol]

/-- resultFilePath: the file written/read by save/load — the folder path
plus `f"{agent_name}.json"` (the agent name is not sanitized). -/
def resultFilePath (userId sessionId stockSymbol agentName : String) : List String :=
  getFolderPath userId sessionId stockSymbol ++ [agentName ++ ".json"]

/-- FileSystem models the results directory: a map from file path to the
JSON object stored in the file (most recent write first). -/
abbrev FileSystem := List (List String × List (String × PyVal))

/-- fsRead: content of a file, if present (first, i.e. latest, write wins). -/
def fsRead (fs : FileSystem) (path : List String) : Option (List (String × PyVal)) :=
  match fs with
  | [] => none
  | e :: rest => if e.1 = path then some e.2 else fsRead rest path

/-- resultData is the `result_data` dict built by `save_agent_result`, with
its seven keys in source order; `timestamp` is `datetime.now().isoformat()`,
passed in as a parameter, and `metadata or {}` becomes `meta.getD []`. -/
def resultData (userId sessionId stockSymbol agentName content ts : String)
    (meta : Option (List (String × PyVal))) : List (String × PyVal) :=
  [("agent_name", .pstr agentName),
   ("content", .pstr content),
   ("timestamp", .pstr ts),
   ("user_id", .pstr userId),
   ("session_id", .pstr sessionId),
   ("stock_symbol", .pstr stockSymbol),
   ("metadata", .pdict (meta.getD []))]

/-- save_agent_result models `AgentResultStorage.save_agent_result` on a
filesystem where the write succeeds: it writes `result_data` to the
computed file path and returns True. -/
def save_agent_result (fs : FileSystem) (userId sessionId stockSymbol agentName content ts : String)
    (meta : Option (List (String × PyVal))) : Bool × FileSystem :=
  (true, (resultFilePath userId sessionId stockSymbol agentName,
          resultData userId sessionId stockSymbol agentName content ts meta) :: fs)

/-- load_agent_result models `AgentResultStorage.load_agent_result`: reads
and JSON-decodes the file at the computed path, or None if absent. -/
def load_agent_result (fs : FileSystem) (userId sessionId stockSymbol agentName : String) :
    Option (List (String × PyVal)) :=
  fsRead fs (resultFilePath userId sessionId stockSymbol agentName)

/-! ## app/agent_result_storage.py — _extract_stock_symbol

The six regex patterns are embedded with Python `re.search` semantics:
leftmost starting position first; at a given start the greedy counted
class run backtracks from its longest length down; `\s+` before each
Korean literal only matches its maximal run, because the literals that
follow begin with non-whitespace characters. -/

/-- pyWs is the Python regex class `\s` over the ASCII range, by code
point: space, tab, newline, carriage return, vertical tab, form feed. -/
def pyWs (c : Char) : Bool :=
  c.toNat = 32 || c.toNat = 9 || c.toNat = 10 || c.toNat = 13 || c.toNat = 11 || c.toNat = 12

/-- leads pat l: the character list `pat` is a leading run of `l`. -/
def leads : List Char → List Char → Bool
  | [], _ => true
  | _ :: _, [] => false
  | p :: ps, c :: cs => p = c && leads ps cs

/-- leadsStr: `leads` with a string pattern. -/
def leadsStr (pat : String) (l : List Char) : Bool := leads pat.data l

/-- isAsciiLetter is `[A-Z]` under `re.IGNORECASE` (the patterns are
compiled with `re.IGNORECASE`, so the class matches both cases). -/
def isAsciiLetter (c : Char) : Bool :=
  (65 ≤ c.toNat && c.toNat ≤ 90) || (97 ≤ c.toNat && c.toNat ≤ 122)

/-- isHangulSyl is the class `[가-힣]` (Hangul syllables U+AC00–U+D7A3). -/
def isHangulSyl (c : Char) : Bool :=
  0xAC00 ≤ c.toNat && c.toNat ≤ 0xD7A3

/-- hangulOrLetter is the class `[가-힣a-zA-Z]`. -/
def hangulOrLetter (c : Char) : Bool :=
  isHangulSyl c || isAsciiLetter c

/-- wsPlusThen k l: `\s+` followed by `k`; the continuation is applied after
the maximal whitespace run (all continuations here start with
non-whitespace literals, so shorter runs cannot match). -/
def wsPlusThen (k : List Char → Bool) : List Char → Bool
  | [] => false
  | c :: rest => pyWs c && k (rest.dropWhile pyWs)

/-- suffix1 is `\s+(?:종목|주식|주가|주)`, shared by patterns 1 and 4. -/
def suffix1 (l : List Char) : Bool :=
  wsPlusThen (fun r => leadsStr "종목" r || leadsStr "주식" r || leadsStr "주가" r || leadsStr "주" r) l

/-- suffix2 is `\s+(?:을|를)\s+분석`, shared by patterns 2 and 5 (을 and 를
are single characters, so one character is consumed before the second `\s+`). -/
def suffix2 (l : List Char) : Bool :=
  wsPlusThen (fun r =>
    (leadsStr "을" r || leadsStr "를" r) && wsPlusThen (fun r2 => leadsStr "분석" r2) (r.drop 1)) l

/-- suffix3 is `\s+(?:에\s+대해|에\s+대한)`, shared by patterns 3 and 6. -/
def suffix3 (l : List Char) : Bool :=
  wsPlusThen (fun r =>
    leadsStr "에" r && wsPlusThen (fun r2 => leadsStr "대해" r2 || leadsStr "대한" r2) (r.drop 1)) l

/-- tryLens l suf k: greedy backtracking over the captured-group length,
from `k` characters down to 1, returning the first length whose remainder
satisfies the suffix pattern. -/
def tryLens (l : List Char) (suf : List Char → Bool) : Nat → Option (List Char)
  | 0 => none
  | k + 1 => if suf (l.drop (k + 1)) then some (l.take (k + 1)) else tryLens l suf k

/-- capRun cls cap l: the longest group length the regex engine tries at
this position — the maximal run of class characters, clipped by the counted
bound `{1,cap}` when present. -/
def capRun (cls : Char → Bool) (cap : Option Nat) (l : List Char) : Nat :=
  match cap with
  | some n => min (l.takeWhile cls).length n
  | none => (l.takeWhile cls).length

/-- searchPat cls cap suf: `re.search` for `(cls{1,cap})suf` (or `(cls+)suf`
when `cap = none`): try each start position left to right; at each, the
class run is bounded by the maximal run of `cls` characters. -/
def searchPat (cls : Char → Bool) (cap : Option Nat) (suf : List Char → Bool) :
    List Char → Option (List Char)
  | [] => none
  | c :: rest =>
    match tryLens (c :: rest) suf (capRun cls cap (c :: rest)) with
    | some g => some g
    | none => searchPat cls cap suf rest

/-- searchStockPattern: the six patterns of `_extract_stock_symbol`, tried
in source order; the result is the captured group of the first pattern that
matches anywhere in the query. -/
def searchStockPattern (l : List Char) : Option (List Char) :=
  (searchPat isAsciiLetter (some 5) suffix1 l) <|>
  (searchPat isAsciiLetter (some 5) suffix2 l) <|>
  (searchPat isAsciiLetter (some 5) suffix3 l) <|>
  (searchPat hangulOrLetter none suffix1 l) <|>
  (searchPat hangulOrLetter none suffix2 l) <|>
  (searchPat hangulOrLetter none suffix3 l)

/-- stripList models Python `str.strip()` (drop whitespace from both ends;
the captured groups can never contain whitespace, so the ASCII set suffices). -/
def stripList (l : List Char) : List Char :=
  ((l.dropWhile pyWs).reverse.dropWhile pyWs).reverse

/-- extract_stock_symbol models `AgentResultStorage._extract_stock_symbol`:
on a match, the group is lowercased (`.lower()`), Hangul characters are
removed (`re.sub(r'[가-힣]', '', symbol)`), and the stripped remainder is
returned if non-empty, else "unknown"; with no match, "unknown". -/
def extract_stock_symbol (q : String) : String :=
  match searchStockPattern q.data with
  | none => "unknown"
  | some g =>
    let symbol := (g.map Char.toLower).filter (fun c => !(isHangulSyl c))
    let t := stripList symbol
    if t = [] then "unknown" else String.mk t

/-- extract_stock_from_query is the public method, which just delegates. -/
def extract_stock_from_query (q : String) : String :=
  extract_stock_symbol q

/-! ## app/sub_agents/utils/firestore_config.py — FirestoreConfig -/

/-- DEFAULT_MODEL, the hard-coded fallback model string. -/
def DEFAULT_MODEL : String := "gemini-2.5-flash"

/-- DEFAULT_SHARED_INSTRUCTION, the hard-coded fallback shared instruction. -/
def DEFAULT_SHARED_INSTRUCTION : String := "우리는 세계 최고의 금융회사다."

/-- ConfigState models the class-level state of FirestoreConfig: the
`_cache` dict, the `_loaded` flag, and (for stating the at-most-once-load
property) a count of how many times the body of `load_configs` actually
went to the store. -/
structure ConfigState where
  cache : List (String × String)
  loaded : Bool
  fetchCount : Nat
deriving DecidableEq, Repr

/-- initConfigState: the state at process start. -/
def initConfigState : ConfigState := ⟨[], false, 0⟩

/-- SharedOutcome models what loading the shared-instruction document did:
document missing, document without a "description" field, field found, or
an exception during the read (caught locally). -/
inductive SharedOutcome where
  | missing | noField | found (desc : String) | loadError
deriving DecidableEq, Repr

/-- StoreOutcome models one attempt to read Firestore: no client
(missing/invalid credentials), an exception while streaming the collection,
or the streamed documents (id, optional "llm_model" field) together with
the shared-instruction read. -/
inductive StoreOutcome where
  | unavailable
  | loadFailure
  | docs (ds : List (String × Option String)) (shared : SharedOutcome)
deriving DecidableEq, Repr

/-- dictAssign models Python `d[k] = v` on the cache: replace in place if
the key exists, else append. -/
def dictAssign (c : List (String × String)) (k v : String) : List (String × String) :=
  if c.any (fun kv => kv.1 = k) then
    c.map (fun kv => if kv.1 = k then (kv.1, v) else kv)
  else
    c ++ [(k, v)]

/-- load_configs models `FirestoreConfig.load_configs`: a no-op when
already loaded; otherwise it reads the store once (counted), fills the
cache from documents that carry an "llm_model" field, stores the shared
instruction under the "shared_instruction" key (the documented default when
the document exists without the field), and sets `_loaded = True` on every
path, including the failure paths. -/
def load_configs (st : ConfigState) (o : StoreOutcome) : ConfigState :=
  if st.loaded then st
  else
    match o with
    | .unavailable => { st with loaded := true, fetchCount := st.fetchCount + 1 }
    | .loadFailure => { st with loaded := true, fetchCount := st.fetchCount + 1 }
    | .docs ds shared =>
      let c1 := ds.foldl (fun c d =>
        match d.2 with
        | some model => dictAssign c d.1 model
        | none => c) st.cache
      let c2 := match shared with
        | .found desc => dictAssign c1 "shared_instruction" desc
        | .noField => dictAssign c1 "shared_instruction" DEFAULT_SHARED_INSTRUCTION
        | .missing => c1
        | .loadError => c1
      { cache := c2, loaded := true, fetchCount := st.fetchCount + 1 }

/-- get_model models `FirestoreConfig.get_model`: ensure the configs are
loaded (idempotent), then an O(1) cache lookup with fallback to
DEFAULT_MODEL. -/
def get_model (st : ConfigState) (o : StoreOutcome) (agentName : String) :
    String × ConfigState :=
  let st' := if st.loaded then st else load_configs st o
  match strLookup agentName st'.cache with
  | some model => (model, st')
  | none => (DEFAULT_MODEL, st')

/-- runGetModels: a process-lifetime sequence of get_model calls, each with
the store outcome it would see if it were the one to load. -/
def runGetModels (st : ConfigState) : List (StoreOutcome × String) → ConfigState
  | [] => st
  | c :: rest => runGetModels (get_model st c.1 c.2).2 rest

/-! ## Python value rendering (f-string interpolation and truthiness) -/

/-- pyTruthy models Python truthiness for the embedded values (numbers are
kept as lexemes; "0", "-0" and "0.0" cover the falsy numeric lexemes that
can occur here). -/
def pyTruthy : PyVal → Bool
  | .pnull => false
  | .pbool b => b
  | .pnum s => !(s = "0" || s = "0.0" || s = "-0" || s = "-0.0")
  | .pstr s => !(s = "")
  | .plist l => !l.isEmpty
  | .pdict kvs => !kvs.isEmpty

mutual

/-- pyStr models `str(v)` as used by f-string interpolation.  For strings
inside containers Python uses `repr`; its escaping of quotes and special
characters is simplified to plain single-quoting (no claim depends on it:
the instruction-builder claims evaluate it only on strings and on the
empty default). -/
def pyStr : PyVal → String
  | .pnull => "None"
  | .pbool true => "True"
  | .pbool false => "False"
  | .pnum s => s
  | .pstr s => s
  | .plist l => "[" ++ pyStrElems l ++ "]"
  | .pdict kvs => "\x7b" ++ pyStrPairs kvs ++ "\x7d"

/-- pyReprV models `repr(v)` (container elements). -/
def pyReprV : PyVal → String
  | .pnull => "None"
  | .pbool true => "True"
  | .pbool false => "False"
  | .pnum s => s
  | .pstr s => "\x27" ++ s ++ "\x27"
  | .plist l => "[" ++ pyStrElems l ++ "]"
  | .pdict kvs => "\x7b" ++ pyStrPairs kvs ++ "\x7d"

/-- pyStrElems: comma-separated reprs of list elements. -/
def pyStrElems : List PyVal → String
  | [] => ""
  | [v] => pyReprV v
  | v :: rest => pyReprV v ++ ", " ++ pyStrElems rest

/-- pyStrPairs: comma-separated `'key': repr(value)` pairs. -/
def pyStrPairs : List (String × PyVal) → String
  | [] => ""
  | [kv] => "\x27" ++ kv.1 ++ "\x27: " ++ pyReprV kv.2
  | kv :: rest => "\x27" ++ kv.1 ++ "\x27: " ++ pyReprV kv.2 ++ ", " ++ pyStrPairs rest

end

/-! ## Instruction builders (app/sub_agents/*/agent.py) -/

/-- SessionState models the ADK session state visible to an
InstructionProvider: a string-keyed map of Python values. -/
abbrev SessionState := List (String × PyVal)

/-- stateGet models `context.state.get(key, default)`. -/
def stateGet (st : SessionState) (k : String) (dflt : PyVal) : PyVal :=
  (assocLookup k st).getD dflt

/-- pyDictGet models `d.get(key, default)` on a value known to be a dict.
In the pipeline `pm_instructions` is always a dict (or absent): after
parse_pm_json_output it is either the parsed dict or `{}`.  A non-dict
value would raise AttributeError in Python; the embedding returns the
default there and no theorem evaluates that case. -/
def pyDictGet (v : PyVal) (k : String) (dflt : PyVal) : PyVal :=
  match v with
  | .pdict kvs => (assocLookup k kvs).getD dflt
  | _ => dflt

/-- bsPmSection: the `pm_section` f-string of get_balance_sheet_instruction. -/
def bsPmSection (team : String) : String :=
  "\n[🎯 중요] 재무팀 전체 업무 지침\n━━━━━━━━━━━━━━━━━━━━━━━━━━━━━━━━━━━━━━━━\n"
  ++ team ++
  "\n━━━━━━━━━━━━━━━━━━━━━━━━━━━━━━━━━━━━━━━━\n\n당신은 재무팀의 대차대조표(Balance Sheet) 분석 담당 실무자입니다.\n위 팀 전체 업무 지침 내에서 대차대조표 분석을 집중적으로 수행하세요.\n\n"

/-- bsTask: the static task description of get_balance_sheet_instruction
(everything after the shared-instruction interpolation). -/
def bsTask : String :=
  "\n\n[Description]\nBalance Sheet 도구를 사용하여 회사의 대차대조표를 분석하세요.\n가장 최근 데이터를 얻기 위해 period=\x27quarter\x27 및 period=\x27annual\x27 매개변수를 사용하세요.\n자산, 부채, 자본 및 재무 상태에 초점을 맞추세요.\n\n[Expected Output]\n대차대조표에 대한 상세한 분석을 제공하세요.\n분기 및 연간 데이터를 포함하세요.\nFACT 및 OPINION 섹션으로 분리하세요.\nMarkdown 형식을 사용하세요.\n"

/-- get_balance_sheet_instruction, from balance_sheet_analyst/agent.py. -/
def get_balance_sheet_instruction (st : SessionState) : String :=
  let pmInstructions := stateGet st "pm_instructions" (.pdict [])
  let teamInstruction := pyDictGet pmInstructions "financial_team_instruction" (.pstr "")
  let pmSection := if pyTruthy teamInstruction then bsPmSection (pyStr teamInstruction) else ""
  let sharedInstruction := pyStr (stateGet st "shared_instruction" (.pstr ""))
  "\n" ++ pmSection ++ "모든 에이전트 공통 지침: " ++ sharedInstruction ++ bsTask

/-- techPmSection: the `pm_section` f-string of get_technical_analyst_instruction. -/
def techPmSection (custom : String) : String :=
  "\n[🎯 중요] 프로젝트 매니저의 업무 지침\n━━━━━━━━━━━━━━━━━━━━━━━━━━━━━━━━━━━━━━━━\n"
  ++ custom ++
  "\n━━━━━━━━━━━━━━━━━━━━━━━━━━━━━━━━━━━━━━━━\n\n위 업무 지침을 최우선으로 따라 분석을 수행하세요.\n\n"

/-- techTask: the static task description of get_technical_analyst_instruction. -/
def techTask : String :=
  "\n\n[설명]\n제공된 도구를 사용하여 회사 주식의 기술적 분석을 수행하여 주가 움직임과 기술적 지표를 분석합니다.\n주가 움직임을 분석하고 추세, 지지/저항 수준 및 잠재적 진입점을 식별하기 위해 주어진 도구를 사용합니다.\n  - Simple Moving Average 도구를 사용하여 단순 이동 평균을 계산하고 분석합니다.\n  - Relative Strength Index 도구를 사용하여 모멘텀 및 과매수/과매도 상태를 측정합니다.\n  - Average Directional Index 도구를 사용하여 추세 강도 데이터를 분석합니다.\n이러한 지표의 결과를 해석하여 가격 추세, 모멘텀 및 잠재적 거래 신호에 대한 통찰력을 제공합니다.\n\n[예상 출력]\n최종 보고서는 다음을 포함하는 포괄적인 기술적 분석이어야 합니다.\n- 이동 평균(SMA) 분석 및 추세에 대한 시사점.\n- 모멘텀 및 잠재적 반전 신호에 대한 RSI 해석.\n- 변동성 평가를 위한 표준 편차 분석.\n- 지표를 기반으로 한 지지 및 저항 수준 식별.\n- [중요] 잠재적 진입점, 목표 가격 및 위험 평가.\n"

/-- get_technical_analyst_instruction, from technical_analyst/agent.py. -/
def get_technical_analyst_instruction (st : SessionState) : String :=
  let pmInstructions := stateGet st "pm_instructions" (.pdict [])
  let customInstruction := pyDictGet pmInstructions "technical_analyst_instruction" (.pstr "")
  let pmSection := if pyTruthy customInstruction then techPmSection (pyStr customInstruction) else ""
  let sharedInstruction := pyStr (stateGet st "shared_instruction" (.pstr ""))
  "\n" ++ pmSection ++ "모든 에이전트 공통 지침: " ++ sharedInstruction ++ techTask

/-- webRole: the static block of get_web_researcher_instruction between the
shared instruction and the PM instruction (the `{{user_query}}` f-string
escape renders as a literal brace pair). -/
def webRole : String :=
  "\n\n[참고: 사용자 최초 쿼리]\n\x7buser_query\x7d\n\n[역할]\n웹 기반 종합 리서치를 수행하는 전문 에이전트입니다.\n인터넷 전체를 탐색하여 회사에 대한 최신 정보, 뉴스, 시장 심리, 여론 등을 수집하고 분석합니다.\n\n**투자 디렉터의 업무 지침**\n"

/-- webTask: the static task body of get_web_researcher_instruction between
the PM instruction and the timestamp. -/
def webTask : String :=
  "\n\n[주요 업무]\n1. **광범위한 웹 검색**: TAVILY 검색 도구를 활용하여 뉴스, 블로그, 보고서, 소셜 미디어 등 다양한 웹 콘텐츠를 탐색\n1-1. Tavily MCP 툴은 Tavily의 AI 중심 검색, 추출, 크롤링 플랫폼에 연결합니다. 이 도구는 실시간 웹 검색을 수행하고, 웹페이지에서 특정 데이터를 지능적으로 추출하며, 웹사이트를 **크롤링(수집)**하거나 구조화된 맵을 생성할 수 있는 기능을 제공\n2. **심층 콘텐츠 추출**: 특정 URL의 전체 콘텐츠를 추출하여 상세 분석\n3. **시장 심리 분석**: 웹상의 여론, 토론, 리뷰 등을 분석하여 시장 심리를 파악\n4. **FMP 뉴스 보완**: 기존 FMP 뉴스 API와 TAVILY를 조합하여 더 포괄적인 뉴스 커버리지 제공\n\n[TAVILY 도구 활용 참고]\n- 실시간 웹 검색 (Real-Time Web Search): 에이전트의 작업을 위해 최적화된 실시간 웹 검색을 수행하여 최신 정보를 얻습니다.\n- 지능형 데이터 추출 (Intelligent Data Extraction): 전체 HTML을 파싱(분석)할 필요 없이 모든 웹 페이지에서 특정하고 정제된 데이터와 콘텐츠를 추출합니다.\n- 웹사이트 탐색 (Website Exploration): 웹사이트를 자동으로 크롤링하여 콘텐츠를 탐색하거나 사이트의 레이아웃 및 페이지에 대한 구조화된 맵을 만듭니다.\n\n[분석 포인트]\n- 최신 뉴스 동향 및 시장 반응\n- 투자자 커뮤니티의 의견과 토론\n- 전문가 분석과 리뷰\n- 경쟁사나 산업 전반의 뉴스\n- 소셜 미디어와 포럼의 시장 심리\n\n[💡 추천 사용 순서]\ntavily-search → tavily-extract\n\n[예상 출력]\n리포트 작성 날짜: "

/-- webTail: the static tail of get_web_researcher_instruction after the
timestamp interpolation. -/
def webTail : String :=
  " (읽기 쉬운 한국 현지 시간대로 표기)\n\n최종 답변은 웹 기반 종합 리서치 결과를 상세히 요약한 보고서여야 합니다.\n시장 심리, 여론 동향, 주요 뉴스 포인트 등을 중심으로 분석하세요.\nsenior_research_advisor가 이 보고서를 활용하여 hedge_fund_manager에게 제공할 것이므로\n사실 기반의 객관적 분석에 집중하세요.\n"

/-- get_web_researcher_instruction, from web_researcher/agent.py. -/
def get_web_researcher_instruction (st : SessionState) : String :=
  let pmInstructions := stateGet st "pm_instructions" (.pdict [])
  let stockResearcherInstruction :=
    pyStr (pyDictGet pmInstructions "stock_researcher_instruction" (.pstr ""))
  let sharedInstruction := pyStr (stateGet st "shared_instruction" (.pstr ""))
  let timestamp := pyStr (stateGet st "timestamp" (.pstr ""))
  "\n모든 에이전트 공통 지침: " ++ sharedInstruction ++ webRole
    ++ stockResearcherInstruction ++ webTask ++ timestamp ++ webTail

/-! ## A model of Python `json.loads` (strict defaults)

Used by parse_pm_json_output.  Numbers are kept as lexemes; objects follow
dict semantics (a duplicate key overwrites the value but keeps the original
position).  One representational deviation: Python can decode a lone
surrogate escape (`\ud800`) into an unpaired surrogate character, which a
Lean `Char` cannot hold, so the model rejects it; no theorem below feeds
the parser such an input. -/

/-- jsonWsChar: the whitespace skipped by the JSON decoder. -/
def jsonWsChar (c : Char) : Bool :=
  c = ' ' || c = '\t' || c = '\n' || c = '\r'

/-- skipWs: drop leading JSON whitespace. -/
def skipWs (l : List Char) : List Char := l.dropWhile jsonWsChar

/-- hexVal: value of one hex digit. -/
def hexVal (c : Char) : Option Nat :=
  if '0' ≤ c ∧ c ≤ '9' then some (c.toNat - '0'.toNat)
  else if 'a' ≤ c ∧ c ≤ 'f' then some (c.toNat - 'a'.toNat + 10)
  else if 'A' ≤ c ∧ c ≤ 'F' then some (c.toNat - 'A'.toNat + 10)
  else none

/-- hex4: value of a four-hex-digit escape. -/
def hex4 (a b c d : Char) : Option Nat :=
  match hexVal a, hexVal b, hexVal c, hexVal d with
  | some x, some y, some z, some w => some (((x * 16 + y) * 16 + z) * 16 + w)
  | _, _, _, _ => none

/-- parseStringBody: the characters after an opening quote, up to the
closing quote: returns content and remaining input.  Strict mode: raw
control characters and unknown escapes are rejected; `\uXXXX` escapes
combine surrogate pairs. -/
def parseStringBody : List Char → Option (List Char × List Char)
  | [] => none
  | '"' :: rest => some ([], rest)
  | '\\' :: 'u' :: a :: b :: c :: d :: rest =>
    match hex4 a b c d with
    | none => none
    | some n =>
      if 0xD800 ≤ n ∧ n ≤ 0xDBFF then
        match rest with
        | '\\' :: 'u' :: a2 :: b2 :: c2 :: d2 :: rest2 =>
          match hex4 a2 b2 c2 d2 with
          | some m =>
            if 0xDC00 ≤ m ∧ m ≤ 0xDFFF then
              (parseStringBody rest2).map (fun r =>
                (Char.ofNat (0x10000 + (n - 0xD800) * 0x400 + (m - 0xDC00)) :: r.1, r.2))
            else none
          | none => none
        | _ => none
      else if 0xDC00 ≤ n ∧ n ≤ 0xDFFF then none
      else (parseStringBody rest).map (fun r => (Char.ofNat n :: r.1, r.2))
  | '\\' :: e :: rest =>
    match (match e with
      | '"' => some '"'
      | '\\' => some '\\'
      | '/' => some '/'
      | 'b' => some '\x08'
      | 'f' => some '\x0c'
      | 'n' => some '\n'
      | 'r' => some '\r'
      | 't' => some '\t'
      | _ => none) with
    | some ch => (parseStringBody rest).map (fun r => (ch :: r.1, r.2))
    | none => none
  | c :: rest =>
    if c.val < 0x20 then none
    else (parseStringBody rest).map (fun r => (c :: r.1, r.2))

/-- numDigits: leading decimal digits. -/
def numDigits (l : List Char) : List Char × List Char :=
  (l.takeWhile Char.isDigit, l.dropWhile Char.isDigit)

/-- parseNumberLex: the JSON number regex
`(-?(?:0|[1-9]\d*))(\.\d+)?([eE][-+]?\d+)?`, returning the matched lexeme
and the rest (longest match; a malformed fraction or exponent simply ends
the lexeme, as with the Python regex). -/
def parseNumberLex (l : List Char) : Option (List Char × List Char) :=
  let (sign, l1) := match l with
    | '-' :: r => ([Char.ofNat 45], r)
    | _ => ([], l)
  match l1 with
  | '0' :: r1 => some (sign ++ ['0'], r1)
  | c :: _ =>
    if c.isDigit then
      let (ds, r1) := numDigits l1
      some (sign ++ ds, r1)
    else none
  | [] => none

/-- parseFracExp: the optional fraction and exponent after the integer
part, returning the extra lexeme characters and the rest. -/
def parseFracExp (l : List Char) : List Char × List Char :=
  let (frac, l1) := match l with
    | '.' :: r =>
      let (ds, r1) := numDigits r
      if ds = [] then (([] : List Char), l) else ('.' :: ds, r1)
    | _ => ([], l)
  let (ex, l2) := match l1 with
    | e :: r =>
      if e = 'e' ∨ e = 'E' then
        let (sgn, r1) := match r with
          | '+' :: r2 => (['+'], r2)
          | '-' :: r2 => ([Char.ofNat 45], r2)
          | _ => (([] : List Char), r)
        let (ds, r2) := numDigits r1
        if ds = [] then (([] : List Char), l1) else (e :: (sgn ++ ds), r2)
      else ([], l1)
    | [] => ([], l1)
  (frac ++ ex, l2)

/-- dictInsertPy models `d[k] = v` while building a decoded JSON object:
overwrite in place if the key exists, else append. -/
def dictInsertPy (c : List (String × PyVal)) (k : String) (v : PyVal) :
    List (String × PyVal) :=
  if c.any (fun kv => kv.1 = k) then
    c.map (fun kv => if kv.1 = k then (kv.1, v) else kv)
  else
    c ++ [(k, v)]

mutual

/-- parseValue: one JSON value at the current (whitespace-free) position. -/
def parseValue : Nat → List Char → Option (PyVal × List Char)
  | 0, _ => none
  | fuel + 1, l =>
    match l with
    | '"' :: rest => (parseStringBody rest).map (fun r => (.pstr (String.mk r.1), r.2))
    | '\x7b' :: rest => parseObjBody fuel rest
    | '[' :: rest => parseArrBody fuel rest
    | 'n' :: 'u' :: 'l' :: 'l' :: rest => some (.pnull, rest)
    | 't' :: 'r' :: 'u' :: 'e' :: rest => some (.pbool true, rest)
    | 'f' :: 'a' :: 'l' :: 's' :: 'e' :: rest => some (.pbool false, rest)
    | 'N' :: 'a' :: 'N' :: rest => some (.pnum "NaN", rest)
    | 'I' :: 'n' :: 'f' :: 'i' :: 'n' :: 'i' :: 't' :: 'y' :: rest =>
      some (.pnum "Infinity", rest)
    | '-' :: 'I' :: 'n' :: 'f' :: 'i' :: 'n' :: 'i' :: 't' :: 'y' :: rest =>
      some (.pnum "-Infinity", rest)
    | _ =>
      match parseNumberLex l with
      | some (intLex, r1) =>
        let (fe, r2) := parseFracExp r1
        some (.pnum (String.mk (intLex ++ fe)), r2)
      | none => none

/-- parseObjBody: the members after an opening brace. -/
def parseObjBody : Nat → List Char → Option (PyVal × List Char)
  | 0, _ => none
  | fuel + 1, l =>
    match skipWs l with
    | '\x7d' :: rest => some (.pdict [], rest)
    | l' => parseMembers fuel [] l'

/-- parseArrBody: the elements after an opening bracket. -/
def parseArrBody : Nat → List Char → Option (PyVal × List Char)
  | 0, _ => none
  | fuel + 1, l =>
    match skipWs l with
    | ']' :: rest => some (.plist [], rest)
    | l' => parseElems fuel [] l'

/-- parseMembers: `"key" : value (, "key" : value)* }`. -/
def parseMembers : Nat → List (String × PyVal) → List Char → Option (PyVal × List Char)
  | 0, _, _ => none
  | fuel + 1, acc, l =>
    match l with
    | '"' :: r =>
      match parseStringBody r with
      | none => none
      | some (kChars, r2) =>
        match skipWs r2 with
        | ':' :: r3 =>
          match parseValue fuel (skipWs r3) with
          | none => none
          | some (v, r4) =>
            let acc' := dictInsertPy acc (String.mk kChars) v
            match skipWs r4 with
            | ',' :: r5 => parseMembers fuel acc' (skipWs r5)
            | '\x7d' :: r5 => some (.pdict acc', r5)
            | _ => none
        | _ => none
    | _ => none

/-- parseElems: `value (, value)* ]`. -/
def parseElems : Nat → List PyVal → List Char → Option (PyVal × List Char)
  | 0, _, _ => none
  | fuel + 1, acc, l =>
    match parseValue fuel l with
    | none => none
    | some (v, r) =>
      match skipWs r with
      | ',' :: r2 => parseElems fuel (acc ++ [v]) (skipWs r2)
      | ']' :: r2 => some (.plist (acc ++ [v]), r2)
      | _ => none

end

/-- jsonLoads models `json.loads`: decode one value, allowing surrounding
whitespace and rejecting trailing data.  The fuel bound is generous: every
recursive step either consumes input or fails. -/
def jsonLoads (s : String) : Option PyVal :=
  match parseValue (4 * s.length + 8) (skipWs s.data) with
  | some (v, rest) => if skipWs rest = [] then some v else none
  | none => none

/-! ## app/sub_agents/project_manager/agent.py — parse_pm_json_output -/

/-- fenceLit: three backticks. -/
def fenceLit : List Char := ['\x60', '\x60', '\x60']

/-- jsonFenceLit: the literal part "```json" of the fence regex. -/
def jsonFenceLit : List Char := ['\x60', '\x60', '\x60', 'j', 's', 'o', 'n']

/-- fenceAfterWs: `\s*` then three literal backticks (the backtick is not
whitespace, so the greedy `\s*` is equivalent to skipping the maximal run). -/
def fenceAfterWs (l : List Char) : Bool :=
  leads fenceLit (l.dropWhile pyWs)

/-- findBody: the non-greedy `.*?\}` of the fence regex (with `re.DOTALL`):
the body extends to the first `}` that is followed by `\s*` and three
backticks; the returned list includes that closing brace. -/
def findBody : List Char → Option (List Char)
  | [] => none
  | c :: rest =>
    if c = '\x7d' && fenceAfterWs rest then some [c]
    else (findBody rest).map (fun b => c :: b)

/-- matchFenceAt: the fence regex anchored at the current position:
literal "```json", then `\s*` and the captured `\{.*?\}` (the brace is not
whitespace, so the greedy `\s*` is equivalent to skipping the maximal run). -/
def matchFenceAt (l : List Char) : Option (List Char) :=
  if leads jsonFenceLit l then
    match (l.drop 7).dropWhile pyWs with
    | '\x7b' :: rest => (findBody rest).map (fun b => '\x7b' :: b)
    | _ => none
  else none

/-- searchFence models
`re.search(r'```json\s*(\{.*?\})\s*```', pm_output, re.DOTALL)`: the match
at the leftmost start position wins; returns the captured group. -/
def searchFence : List Char → Option (List Char)
  | [] => none
  | c :: rest =>
    match matchFenceAt (c :: rest) with
    | some g => some g
    | none => searchFence rest

/-- previewOk models whether the preview line
`preview = value[:80] + "..." if len(value) > 80 else value` and its print
succeed for one instruction value: strings always; lists and dicts only up
to length 80 (`list + str` and `dict[:80]` raise TypeError); everything
else fails at `len(value)`. -/
def previewOk : PyVal → Bool
  | .pstr _ => true
  | .plist l => l.length ≤ 80
  | .pdict kvs => kvs.length ≤ 80
  | _ => false

/-- pmPost: what ends up in `state["pm_instructions"]` after the parsed
value has been stored and the logging loop has run inside the same `try`:
a non-dict value raises at `len(...)` or `.items()` and the handler resets
the state to `{}`; a dict survives only if every value's preview succeeds. -/
def pmPost (v : PyVal) : PyVal :=
  match v with
  | .pdict kvs => if kvs.all (fun kv => previewOk kv.2) then .pdict kvs else .pdict []
  | _ => .pdict []

/-- pmTryStr: the `try` block of parse_pm_json_output on a non-empty
string: extract a fenced JSON block if the regex matches, else parse the
whole string; any failure is caught and leaves `{}`. -/
def pmTryStr (s : String) : PyVal :=
  match searchFence s.data with
  | some g =>
    match jsonLoads (String.mk g) with
    | some v => pmPost v
    | none => .pdict []
  | none =>
    match jsonLoads s with
    | some v => pmPost v
    | none => .pdict []

/-- parse_pm_json_output, from project_manager/agent.py, as a function from
the prior value of `state["pm_instructions"]` (None when absent; the
`state.get` default is "") to its final value: an existing dict is kept, a
falsy or non-string value is replaced by `{}`, and a non-empty string goes
through the try block. -/
def parse_pm_json_output (pm : Option PyVal) : PyVal :=
  match pm with
  | none => .pdict []
  | some (.pstr s) => if s = "" then .pdict [] else pmTryStr s
  | some (.pdict kvs) => .pdict kvs
  | some _ => .pdict []

/-- pmRun: parse_pm_json_output on a session whose "pm_instructions" holds
the string `s`. -/
def pmRun (s : String) : PyVal := parse_pm_json_output (some (.pstr s))

/-! # Theorems -/

/-- sanitize_chars: every character of a sanitized component is in the
`[\w\-_]` class. -/
theorem sanitize_chars (x : String) :
    ∀ c ∈ (sanitizeComponent x).data, isWordDash c = true := by
  intro c hc
  simp only [sanitizeComponent, String.mk, List.mem_map] at hc
  obtain ⟨a, _, ha⟩ := hc
  subst ha
  by_cases h : isWordDash a = true
  · simp [h]
  · rw [if_neg h]; decide

/-- wordDash_safe: the `[\w\-_]` class excludes the path-hostile
characters. -/
theorem wordDash_safe (c : Char) (h : isWordDash c = true) :
    c ≠ '/' ∧ c ≠ '\\' ∧ c ≠ '.' := by
  refine ⟨?_, ?_, ?_⟩ <;> rintro rfl <;> revert h <;> decide

/-- C9: for every user id, session id and stock symbol (including ones with
"/", ".." or other special characters), _get_folder_path returns exactly
the components base_dir / user_&lt;s1&gt; / session_&lt;s2&gt;_&lt;s3&gt;, the sanitized
parts contain only word characters, hyphens and underscores, and no
character of any folder component is a path separator or a dot — so the
folder lies strictly inside base_dir. -/
theorem C9_sanitized_path (userId sessionId stockSymbol : String) :
    getFolderPath userId sessionId stockSymbol =
      ["results", "user_" ++ sanitizeComponent userId,
       "session_" ++ sanitizeComponent sessionId ++ "_" ++ sanitizeComponent stockSymbol] ∧
    (∀ c ∈ (sanitizeComponent userId).data, isWordDash c = true) ∧
    (∀ c ∈ (sanitizeComponent sessionId).data, isWordDash c = true) ∧
    (∀ c ∈ (sanitizeComponent stockSymbol).data, isWordDash c = true) ∧
    (∀ comp ∈ getFolderPath userId sessionId stockSymbol,
      ∀ c ∈ comp.data, c ≠ '/' ∧ c ≠ '\\' ∧ c ≠ '.') := by
  refine ⟨rfl, sanitize_chars _, sanitize_chars _, sanitize_chars _, ?_⟩
  intro comp hcomp c hc
  have safeOf : ∀ x : String, ∀ c ∈ (sanitizeComponent x).data,
      c ≠ '/' ∧ c ≠ '\\' ∧ c ≠ '.' :=
    fun x c hc => wordDash_safe c (sanitize_chars x c hc)
  have hres : ∀ c ∈ ("results" : String).data, c ≠ '/' ∧ c ≠ '\\' ∧ c ≠ '.' := by decide
  have huser : ∀ c ∈ ("user_" : String).data, c ≠ '/' ∧ c ≠ '\\' ∧ c ≠ '.' := by decide
  have hsess : ∀ c ∈ ("session_" : String).data, c ≠ '/' ∧ c ≠ '\\' ∧ c ≠ '.' := by decide
  have hund : ∀ c ∈ ("_" : String).data, c ≠ '/' ∧ c ≠ '\\' ∧ c ≠ '.' := by decide
  simp only [getFolderPath, List.mem_cons, List.mem_singleton] at hcomp
  rcases hcomp with rfl | rfl | rfl | h
  · exact hres c hc
  · rw [String.data_append] at hc
    rcases List.mem_append.mp hc with h1 | h2
    · exact huser c h1
    · exact safeOf _ _ h2
  · rw [String.data_append, String.data_append, String.data_append] at hc
    rcases List.mem_append.mp hc with h1 | h2
    · rcases List.mem_append.mp h1 with h3 | h4
      · rcases List.mem_append.mp h3 with h5 | h6
        · exact hsess c h5
        · exact safeOf _ _ h6
      · exact hund c h4
    · exact safeOf _ _ h2
  · exact absurd h (List.not_mem_nil comp)

/-- C9 witness: a traversal-style input "x/y" is sanitized to "x_y", and a
concrete character of the sanitized component is in the class and is not a
separator or dot. -/
theorem C9_sanitized_path_witness :
    getFolderPath "x/y" "s" "t" = ["results", "user_x_y", "session_s_t"] ∧
    isWordDash 'x' = true ∧
    ('x' ≠ '/' ∧ 'x' ≠ '\\' ∧ 'x' ≠ '.') := by
  refine ⟨?_, ?_, ?_⟩
  · exact (C9_sanitized_path "x/y" "s" "t").1.trans (by decide)
  · exact (C9_sanitized_path "x/y" "s" "t").2.1 'x' (by decide)
  · exact (C9_sanitized_path "x/y" "s" "t").2.2.2.2 "user_x_y" (by decide) 'x' (by decide)

/-- C3: round-trip of the result-storage service — after saving content "X"
for (u1, s1, aapl, technical_analyst_result), loading with the same four
identifiers returns the stored object, whose "content" field is "X". -/
theorem C3_roundtrip (fs : FileSystem) (ts : String)
    (meta : Option (List (String × PyVal))) :
    load_agent_result
        (save_agent_result fs "u1" "s1" "aapl" "technical_analyst_result" "X" ts meta).2
        "u1" "s1" "aapl" "technical_analyst_result" =
      some (resultData "u1" "s1" "aapl" "technical_analyst_result" "X" ts meta) ∧
    assocLookup "content"
        (resultData "u1" "s1" "aapl" "technical_analyst_result" "X" ts meta) =
      some (.pstr "X") := by
  constructor
  · simp [load_agent_result, save_agent_result, fsRead]
  · rfl

/-- C6: a successful save writes the file at
results/user_&lt;sanitized&gt;/session_&lt;sanitized&gt;_&lt;sanitized&gt;/&lt;agent_name&gt;.json,
whose JSON object has exactly the seven fields in source order, with
agent_name, content, user_id, session_id and stock_symbol equal to the
unsanitized arguments. -/
theorem C6_save_layout (fs : FileSystem)
    (userId sessionId stockSymbol agentName content ts : String)
    (meta : Option (List (String × PyVal))) :
    (save_agent_result fs userId sessionId stockSymbol agentName content ts meta).1 = true ∧
    (save_agent_result fs userId sessionId stockSymbol agentName content ts meta).2 =
      ((["results", "user_" ++ sanitizeComponent userId,
         "session_" ++ sanitizeComponent sessionId ++ "_" ++ sanitizeComponent stockSymbol,
         agentName ++ ".json"],
        [("agent_name", .pstr agentName),
         ("content", .pstr content),
         ("timestamp", .pstr ts),
         ("user_id", .pstr userId),
         ("session_id", .pstr sessionId),
         ("stock_symbol", .pstr stockSymbol),
         ("metadata", .pdict (meta.getD []))]) :: fs) ∧
    (resultData userId sessionId stockSymbol agentName content ts meta).map Prod.fst =
      ["agent_name", "content", "timestamp", "user_id", "session_id",
       "stock_symbol", "metadata"] := by
  exact ⟨rfl, rfl, rfl⟩

/-- C8 (implicit): with FMP_API_KEY unset, make_fmp_api_request returns the
documented error dictionary and performs no HTTP request, for every
endpoint and parameter set. -/
theorem C8_missing_api_key (env : List (String × String)) (http : HttpOutcome)
    (endpoint : String) (params : List (String × PyVal))
    (h : strLookup "FMP_API_KEY" env = none) :
    make_fmp_api_request env http endpoint params =
      (.pdict [("error", .pstr "FMP_API_KEY environment variable not set")], none) := by
  simp [make_fmp_api_request, h]

/-- C8 witness: the empty environment has no FMP_API_KEY, and the wrapper
returns the error dict without a request. -/
theorem C8_missing_api_key_witness :
    make_fmp_api_request [] (.netError "boom") "balance-sheet-statement"
        [("symbol", .pstr "AAPL")] =
      (.pdict [("error", .pstr "FMP_API_KEY environment variable not set")], none) :=
  C8_missing_api_key [] (.netError "boom") "balance-sheet-statement"
    [("symbol", .pstr "AAPL")] rfl

/-- C7: on GeneratorExit from the wrapped generator, the wrapper does not
propagate GeneratorExit: it closes the wrapped generator, marks itself
closed, and raises StopAsyncIteration; and every call on a closed wrapper
raises StopAsyncIteration without touching the wrapped generator. -/
theorem C7_generator_exit :
    (∀ w : SafeGen, w.closed = false →
      anext (α := Nat) w .genExit = (.raisesStopAsync, ⟨true, true⟩, true)) ∧
    (∀ (w : SafeGen) (step : GenStep Nat), w.closed = true →
      anext w step = (.raisesStopAsync, w, false)) := by
  constructor
  · intro w h
    simp [anext, h, safeAclose]
  · intro w step h
    simp [anext, h, safeAclose]

/-- C7 witness: concrete run — a fresh wrapper hit by GeneratorExit, then a
second call on the now-closed wrapper. -/
theorem C7_generator_exit_witness :
    anext (α := Nat) ⟨false, false⟩ .genExit = (.raisesStopAsync, ⟨true, true⟩, true) ∧
    anext (α := Nat) ⟨true, true⟩ (.yields 7) = (.raisesStopAsync, ⟨true, true⟩, false) :=
  ⟨C7_generator_exit.1 ⟨false, false⟩ rfl, C7_generator_exit.2 ⟨true, true⟩ (.yields 7) rfl⟩

/-- C1 counterexample: on a network exception, gurufocus_dcf returns
Python None — not a dictionary containing an "error" key — so the claim
that every tool-call wrapper returns an error dictionary on a network
exception is false at this input. -/
theorem C1_counterexample :
    gurufocus_dcf "AMZN" (.netError "connection timed out") = .pnull ∧
    hasErrorKey (gurufocus_dcf "AMZN" (.netError "connection timed out")) = false :=
  ⟨rfl, rfl⟩

/-- C1 amended: the fmp_* wrappers built on make_fmp_api_request do return
a dictionary containing an "error" key on a non-200 status or a network
exception, and never raise; gurufocus_dcf also never raises, but on a
network exception or an HTTP error status (raise_for_status) it returns
None rather than an error dictionary. -/
theorem C1_amended_ok :
    (∀ (env : List (String × String)) (key endpoint : String)
        (params : List (String × PyVal)) (st : Nat) (body : Except String PyVal),
      strLookup "FMP_API_KEY" env = some key → key ≠ "" → st ≠ 200 →
      hasErrorKey (make_fmp_api_request env (.resp st body) endpoint params).1 = true) ∧
    (∀ (env : List (String × String)) (key endpoint : String)
        (params : List (String × PyVal)) (msg : String),
      strLookup "FMP_API_KEY" env = some key → key ≠ "" →
      hasErrorKey (make_fmp_api_request env (.netError msg) endpoint params).1 = true) ∧
    (∀ (env : List (String × String)) (http : HttpOutcome) (ticker : String)
        (limit : Int) (period : String),
      fmp_balance_sheet env http ticker limit period =
        make_fmp_api_request env http "balance-sheet-statement"
          [("symbol", .pstr ticker), ("limit", .pnum (toString limit)),
           ("period", .pstr period)]) ∧
    (∀ (ticker msg : String), gurufocus_dcf ticker (.netError msg) = .pnull) ∧
    (∀ (ticker : String) (p : GuruPage), 400 ≤ p.status →
      gurufocus_dcf ticker (.page p) = .pnull) := by
  refine ⟨?_, ?_, ?_, ?_, ?_⟩
  · intro env key endpoint params st body hk hne hst
    simp only [make_fmp_api_request, hk]
    rw [if_neg hne]
    split
    · rename_i heq
      injection heq with h1 h2
      exact absurd h1 hst
    · rename_i heq
      injection heq with h1 h2
      exact absurd h1 hst
    · rfl
    · rename_i heq
      exact absurd heq (by simp)
  · intro env key endpoint params msg hk hne
    simp only [make_fmp_api_request, hk]
    rw [if_neg hne]
    rfl
  · intro env http ticker limit period
    rfl
  · intro ticker msg
    rfl
  · intro ticker p h
    simp [gurufocus_dcf, h]

/-- C1 witness: a concrete 404 response and a concrete network error both
yield an error dict from make_fmp_api_request; a concrete network error
yields None from gurufocus_dcf. -/
theorem C1_amended_witness :
    hasErrorKey (make_fmp_api_request [("FMP_API_KEY", "k")] (.resp 404 (.ok .pnull))
      "key-metrics" []).1 = true ∧
    hasErrorKey (make_fmp_api_request [("FMP_API_KEY", "k")] (.netError "timeout")
      "key-metrics" []).1 = true ∧
    gurufocus_dcf "TSLA" (.netError "timeout") = .pnull ∧
    gurufocus_dcf "TSLA" (.page ⟨500, false, none⟩) = .pnull := by
  refine ⟨?_, ?_, ?_, ?_⟩
  · exact C1_amended_ok.1 [("FMP_API_KEY", "k")] "k" "key-metrics" [] 404 (.ok .pnull)
      rfl (by decide) (by decide)
  · exact C1_amended_ok.2.1 [("FMP_API_KEY", "k")] "k" "key-metrics" [] "timeout"
      rfl (by decide)
  · exact C1_amended_ok.2.2.2.1 "TSLA" "timeout"
  · exact C1_amended_ok.2.2.2.2 "TSLA" ⟨500, false, none⟩ (by decide)

/-- get_model_loaded: once the configs are loaded, get_model never touches
the store or the state again. -/
theorem get_model_loaded (st : ConfigState) (o : StoreOutcome) (a : String)
    (h : st.loaded = true) : (get_model st o a).2 = st := by
  simp only [get_model, h, if_true]
  cases strLookup a st.cache <;> rfl

/-- runGetModels_loaded: a loaded state is a fixed point of any sequence of
get_model calls. -/
theorem runGetModels_loaded (calls : List (StoreOutcome × String)) (st : ConfigState)
    (h : st.loaded = true) : runGetModels st calls = st := by
  induction calls with
  | nil => rfl
  | cons c rest ih =>
    show runGetModels (get_model st c.1 c.2).2 rest = st
    rw [get_model_loaded st c.1 c.2 h, ih]

/-- loadConfigs_once: loading from an unloaded initial state sets the
loaded flag and counts exactly one store access. -/
theorem loadConfigs_once (o : StoreOutcome) :
    (load_configs initConfigState o).loaded = true ∧
    (load_configs initConfigState o).fetchCount = 1 := by
  cases o <;> simp [load_configs, initConfigState]

/-- C4: get_model returns the cached (store-loaded) model for an agent
name present in the cache and the documented default "gemini-2.5-flash"
for an absent name or a failed load; the store is read at most once per
process, and get_model is total (never raises). -/
theorem C4_model_routing :
    (∀ (st : ConfigState) (o : StoreOutcome) (a m : String),
      st.loaded = true → strLookup a st.cache = some m → (get_model st o a).1 = m) ∧
    (∀ (st : ConfigState) (o : StoreOutcome) (a : String),
      st.loaded = true → strLookup a st.cache = none →
      (get_model st o a).1 = DEFAULT_MODEL) ∧
    (∀ a : String, (get_model initConfigState .unavailable a).1 = DEFAULT_MODEL) ∧
    (∀ a : String, (get_model initConfigState .loadFailure a).1 = DEFAULT_MODEL) ∧
    (∀ (st : ConfigState) (o : StoreOutcome) (a : String),
      ((get_model st o a).2).loaded = true) ∧
    (∀ calls : List (StoreOutcome × String),
      (runGetModels initConfigState calls).fetchCount ≤ 1) := by
  refine ⟨?_, ?_, ?_, ?_, ?_, ?_⟩
  · intro st o a m h hm
    simp [get_model, h, hm]
  · intro st o a h hm
    simp [get_model, h, hm]
  · intro a
    rfl
  · intro a
    rfl
  · intro st o a
    by_cases h : st.loaded = true
    · simp only [get_model, h, if_true]
      cases strLookup a st.cache <;> simpa using h
    · have h' : st.loaded = false := by
        cases hb : st.loaded
        · rfl
        · exact absurd hb h
      simp only [get_model, h', Bool.false_eq_true, if_false]
      have : (load_configs st o).loaded = true := by
        cases o <;> simp [load_configs, h']
      cases strLookup a (load_configs st o).cache <;> simpa using this
  · intro calls
    cases calls with
    | nil => exact Nat.zero_le 1
    | cons c rest =>
      show (runGetModels (get_model initConfigState c.1 c.2).2 rest).fetchCount ≤ 1
      have hinit : initConfigState.loaded = false := rfl
      have hload : (get_model initConfigState c.1 c.2).2 = load_configs initConfigState c.1 := by
        simp only [get_model, hinit, Bool.false_eq_true, if_false]
        cases strLookup c.2 (load_configs initConfigState c.1).cache <;> rfl
      rw [hload, runGetModels_loaded rest _ (loadConfigs_once c.1).1,
        (loadConfigs_once c.1).2]

/-- C4 witness: a loaded cache returns its mapped model; a missing name and
a failed load return the default; two calls after an unavailable store
still count one load attempt. -/
theorem C4_model_routing_witness :
    (get_model ⟨[("balance_sheet_agent", "gemini-2.5-pro")], true, 1⟩ .unavailable
      "balance_sheet_agent").1 = "gemini-2.5-pro" ∧
    (get_model ⟨[("balance_sheet_agent", "gemini-2.5-pro")], true, 1⟩ .unavailable
      "growth_agent").1 = DEFAULT_MODEL ∧
    (get_model initConfigState .loadFailure "growth_agent").1 = "gemini-2.5-flash" ∧
    (runGetModels initConfigState
      [(.unavailable, "a"), (.unavailable, "b"), (.loadFailure, "c")]).fetchCount ≤ 1 := by
  refine ⟨?_, ?_, ?_, ?_⟩
  · exact C4_model_routing.1 ⟨[("balance_sheet_agent", "gemini-2.5-pro")], true, 1⟩
      .unavailable "balance_sheet_agent" "gemini-2.5-pro" rfl rfl
  · exact C4_model_routing.2.1 ⟨[("balance_sheet_agent", "gemini-2.5-pro")], true, 1⟩
      .unavailable "growth_agent" rfl rfl
  · exact C4_model_routing.2.2.2.1 "growth_agent"
  · exact C4_model_routing.2.2.2.2.2 [(.unavailable, "a"), (.unavailable, "b"), (.loadFailure, "c")]

set_option maxRecDepth 40000

/-- C5: on an empty session state, each instruction builder totally
evaluates (the `.get` defaults make missing keys harmless) to a string
that decomposes as static framing text around the empty interpolations
followed by its static task description (bsTask / techTask / the webRole,
webTask, webTail blocks), and that string is non-empty. -/
theorem C5_instruction_builders :
    (get_balance_sheet_instruction [] = "\n모든 에이전트 공통 지침: " ++ bsTask ∧
      get_balance_sheet_instruction [] ≠ "") ∧
    (get_technical_analyst_instruction [] = "\n모든 에이전트 공통 지침: " ++ techTask ∧
      get_technical_analyst_instruction [] ≠ "") ∧
    (get_web_researcher_instruction [] =
        ("\n모든 에이전트 공통 지침: " ++ webRole) ++ webTask ++ webTail ∧
      get_web_researcher_instruction [] ≠ "") := by
  refine ⟨⟨rfl, by decide⟩, ⟨rfl, by decide⟩, ⟨rfl, by decide⟩⟩

/-- toNat_ofNat_valid: Char.ofNat is faithful below the surrogate range. -/
theorem toNat_ofNat_valid {n : Nat} (h : n < 0xD800) : (Char.ofNat n).toNat = n := by
  have hv : n.isValidChar := Or.inl h
  rw [Char.ofNat, dif_pos hv]
  rfl

/-- toLower_hangul: `.lower()` leaves Hangul syllables unchanged. -/
theorem toLower_hangul {c : Char} (h : isHangulSyl c = true) : Char.toLower c = c := by
  simp only [isHangulSyl, Bool.and_eq_true, decide_eq_true_eq] at h
  rw [Char.toLower, if_neg (by omega)]

/-- toLower_letter_range: `.lower()` maps an ASCII letter into a–z. -/
theorem toLower_letter_range {c : Char} (h : isAsciiLetter c = true) :
    97 ≤ (Char.toLower c).toNat ∧ (Char.toLower c).toNat ≤ 122 := by
  simp only [isAsciiLetter, Bool.or_eq_true, Bool.and_eq_true, decide_eq_true_eq] at h
  rw [Char.toLower]
  rcases h with h | h
  · rw [if_pos (by omega), toNat_ofNat_valid (by omega)]
    omega
  · rw [if_neg (by omega)]
    omega

/-- lower_letter_class: a character in a–z is a letter, not Hangul, and not
whitespace. -/
theorem lower_letter_class {c : Char} (h97 : 97 ≤ c.toNat) (h122 : c.toNat ≤ 122) :
    isAsciiLetter c = true ∧ isHangulSyl c = false ∧ pyWs c = false := by
  simp only [isAsciiLetter, isHangulSyl, pyWs, Bool.or_eq_true, Bool.and_eq_true,
    Bool.or_eq_false_iff, Bool.and_eq_false_iff, decide_eq_true_eq, decide_eq_false_iff_not]
  omega

/-- hangul_not_ws: a Hangul syllable is not whitespace. -/
theorem hangul_not_ws {c : Char} (h : isHangulSyl c = true) : pyWs c = false := by
  simp only [isHangulSyl, Bool.and_eq_true, decide_eq_true_eq] at h
  simp only [pyWs, Bool.or_eq_false_iff, decide_eq_false_iff_not]
  omega

/-- tryLens_spec: a successful greedy-backtracking try returns a take of
the input of some positive length within the bound. -/
theorem tryLens_spec (l : List Char) (suf : List Char → Bool) :
    ∀ k g, tryLens l suf k = some g → ∃ j, 1 ≤ j ∧ j ≤ k ∧ g = l.take j := by
  intro k
  induction k with
  | zero => intro g h; exact absurd h (by simp [tryLens])
  | succ k ih =>
    intro g h
    simp only [tryLens] at h
    split at h
    · exact ⟨k + 1, by omega, Nat.le_refl _, (Option.some_inj.mp h).symm⟩
    · obtain ⟨j, h1, h2, h3⟩ := ih g h
      exact ⟨j, h1, Nat.le_succ_of_le h2, h3⟩

/-- take_of_takeWhile_mem: characters of a take that stays within the
maximal class run all satisfy the class. -/
theorem take_of_takeWhile_mem {p : Char → Bool} :
    ∀ (l : List Char) (j : Nat), j ≤ (l.takeWhile p).length →
      ∀ c ∈ l.take j, p c = true := by
  intro l
  induction l with
  | nil => intro j _ c hc; simp at hc
  | cons a t ih =>
    intro j hj c hc
    cases j with
    | zero => simp at hc
    | succ j' =>
      by_cases hpa : p a = true
      · simp only [List.takeWhile_cons, hpa, if_true, List.length_cons,
          Nat.succ_le_succ_iff] at hj
        simp only [List.take_succ_cons, List.mem_cons] at hc
        rcases hc with rfl | hc
        · exact hpa
        · exact ih j' hj c hc
      · rw [List.takeWhile_cons, if_neg hpa] at hj
        simp at hj

/-- capRun_le: the tried group bound never exceeds the maximal class run. -/
theorem capRun_le (cls : Char → Bool) (cap : Option Nat) (l : List Char) :
    capRun cls cap l ≤ (l.takeWhile cls).length := by
  cases cap with
  | none => exact Nat.le_refl _
  | some n => exact Nat.min_le_left _ _

/-- searchPat_chars: every character of a captured group satisfies the
group's character class. -/
theorem searchPat_chars (cls : Char → Bool) (cap : Option Nat) (suf : List Char → Bool) :
    ∀ (l : List Char) (g : List Char), searchPat cls cap suf l = some g →
      ∀ c ∈ g, cls c = true := by
  intro l
  induction l with
  | nil => intro g h; exact absurd h (by simp [searchPat])
  | cons a rest ih =>
    intro g h c hc
    simp only [searchPat] at h
    cases htl : tryLens (a :: rest) suf (capRun cls cap (a :: rest)) with
    | some g' =>
      rw [htl] at h
      obtain ⟨j, _, h2, h3⟩ := tryLens_spec _ _ _ _ htl
      have hg : g = (a :: rest).take j := by
        rw [← Option.some_inj.mp h, h3]
      rw [hg] at hc
      exact take_of_takeWhile_mem _ j (Nat.le_trans h2 (capRun_le cls cap _)) c hc
    | none =>
      rw [htl] at h
      exact ih g h c hc

/-- orElse_cases: how an Option alternative succeeds. -/
theorem orElse_cases {α : Type} {x y : Option α} {g : α} (h : (x <|> y) = some g) :
    x = some g ∨ (x = none ∧ y = some g) := by
  cases x with
  | some v => left; simpa using h
  | none => right; exact ⟨rfl, by simpa using h⟩

/-- letter_subclass: the letter class is contained in the Hangul-or-letter
class. -/
theorem letter_subclass {c : Char} (h : isAsciiLetter c = true) :
    hangulOrLetter c = true := by
  simp [hangulOrLetter, h]

/-- searchStock_chars: every character of the group captured by any of the
six stock patterns is a Hangul syllable or an ASCII letter. -/
theorem searchStock_chars (l : List Char) (g : List Char)
    (h : searchStockPattern l = some g) : ∀ c ∈ g, hangulOrLetter c = true := by
  unfold searchStockPattern at h
  rcases orElse_cases h with h1 | ⟨_, h⟩
  · exact fun c hc => letter_subclass (searchPat_chars _ _ _ _ _ h1 c hc)
  rcases orElse_cases h with h1 | ⟨_, h⟩
  · exact fun c hc => letter_subclass (searchPat_chars _ _ _ _ _ h1 c hc)
  rcases orElse_cases h with h1 | ⟨_, h⟩
  · exact fun c hc => letter_subclass (searchPat_chars _ _ _ _ _ h1 c hc)
  rcases orElse_cases h with h1 | ⟨_, h⟩
  · exact searchPat_chars _ _ _ _ _ h1
  rcases orElse_cases h with h1 | ⟨_, h⟩
  · exact searchPat_chars _ _ _ _ _ h1
  · exact searchPat_chars _ _ _ _ _ h

/-- dropWhile_all_false: dropWhile is the identity when no element
satisfies the predicate. -/
theorem dropWhile_all_false {p : Char → Bool} (l : List Char)
    (h : ∀ c ∈ l, p c = false) : l.dropWhile p = l := by
  cases l with
  | nil => rfl
  | cons a t => simp [List.dropWhile_cons, h a (List.mem_cons_self a t)]

/-- stripList_all_false: `.strip()` is the identity on whitespace-free
text. -/
theorem stripList_all_false (l : List Char) (h : ∀ c ∈ l, pyWs c = false) :
    stripList l = l := by
  unfold stripList
  rw [dropWhile_all_false l h, dropWhile_all_false, List.reverse_reverse]
  intro c hc
  exact h c (List.mem_reverse.mp hc)

/-- C10 (implicit): extract_stock_from_query never returns the empty
string; with no pattern match the result is "unknown"; with a match whose
group is entirely Korean the result is "unknown"; otherwise it is exactly
the lowercased group with the Korean characters removed. -/
theorem C10_extract_stock (q : String) :
    extract_stock_from_query q ≠ "" ∧
    (searchStockPattern q.data = none → extract_stock_from_query q = "unknown") ∧
    (∀ g, searchStockPattern q.data = some g →
      (g.all isHangulSyl = true → extract_stock_from_query q = "unknown") ∧
      (g.all isHangulSyl = false →
        extract_stock_from_query q =
          String.mk ((g.map Char.toLower).filter (fun c => !(isHangulSyl c))))) := by
  refine ⟨?_, ?_, ?_⟩
  · unfold extract_stock_from_query extract_stock_symbol
    cases h : searchStockPattern q.data with
    | none => decide
    | some g =>
      by_cases ht : stripList ((g.map Char.toLower).filter (fun c => !(isHangulSyl c))) = []
      · simp only [ht, if_pos rfl]
        decide
      · simp only [if_neg ht]
        intro he
        exact ht (by simpa using congrArg String.data he)
  · intro h
    unfold extract_stock_from_query extract_stock_symbol
    rw [h]
  · intro g hg
    have hcls := searchStock_chars q.data g hg
    constructor
    · intro hall
      unfold extract_stock_from_query extract_stock_symbol
      rw [hg]
      have hfil : (g.map Char.toLower).filter (fun c => !(isHangulSyl c)) = [] := by
        rw [List.filter_eq_nil_iff]
        intro a ha
        obtain ⟨c0, hc0, hc0a⟩ := List.mem_map.mp ha
        have hh : isHangulSyl c0 = true := by
          have := List.all_eq_true.mp hall c0 hc0
          simpa using this
        rw [← hc0a, toLower_hangul hh]
        simp [hh]
      simp [hfil, stripList]
    · intro hall
      unfold extract_stock_from_query extract_stock_symbol
      rw [hg]
      dsimp only
      have hchars : ∀ c ∈ (g.map Char.toLower).filter (fun c => !(isHangulSyl c)),
          pyWs c = false := by
        intro c hcf
        have hcm := List.mem_of_mem_filter hcf
        obtain ⟨c0, hc0, hc0c⟩ := List.mem_map.mp hcm
        have := hcls c0 hc0
        simp only [hangulOrLetter, Bool.or_eq_true] at this
        rcases this with hh | hl
        · rw [← hc0c, toLower_hangul hh]
          exact hangul_not_ws hh
        · obtain ⟨h97, h122⟩ := toLower_letter_range hl
          rw [← hc0c]
          exact (lower_letter_class h97 h122).2.2
      have hstrip := stripList_all_false _ hchars
      have hne : (g.map Char.toLower).filter (fun c => !(isHangulSyl c)) ≠ [] := by
        obtain ⟨c0, hc0, hch⟩ := List.all_eq_false.mp hall
        have hcl : isAsciiLetter c0 = true := by
          have := hcls c0 hc0
          simp only [hangulOrLetter, Bool.or_eq_true] at this
          rcases this with hh | hl
          · exact absurd hh (by simpa using hch)
          · exact hl
        obtain ⟨h97, h122⟩ := toLower_letter_range hcl
        have hmem : Char.toLower c0 ∈ (g.map Char.toLower).filter
            (fun c => !(isHangulSyl c)) := by
          rw [List.mem_filter]
          exact ⟨List.mem_map_of_mem Char.toLower hc0,
            by simp [(lower_letter_class h97 h122).2.1]⟩
        exact List.ne_nil_of_mem hmem
      rw [hstrip, if_neg hne]

/-- C10 witness: the query "Tesla 주식을 분석해줘" matches pattern 1 with
group "Tesla", which is not all-Korean, and the extractor returns "tesla". -/
theorem C10_extract_stock_witness :
    extract_stock_from_query "Tesla 주식을 분석해줘" = "tesla" ∧
    extract_stock_from_query "Tesla 주식을 분석해줘" ≠ "" := by
  constructor
  · have h := ((C10_extract_stock "Tesla 주식을 분석해줘").2.2
      ['T', 'e', 's', 'l', 'a'] (by decide)).2 (by decide)
    simpa using h
  · exact (C10_extract_stock "Tesla 주식을 분석해줘").1

/-- leads_append: a list is a leading run of itself followed by anything. -/
theorem leads_append (p r : List Char) : leads p (p ++ r) = true := by
  induction p with
  | nil => rfl
  | cons a t ih => simp [leads, ih]

/-- searchFence_no_backtick: the fence regex cannot match a string with no
backtick. -/
theorem searchFence_no_backtick : ∀ l : List Char, '\x60' ∉ l → searchFence l = none := by
  intro l
  induction l with
  | nil => intro _; rfl
  | cons a rest ih =>
    intro h
    have ha : a ≠ '\x60' := fun e => h (e ▸ List.mem_cons_self a rest)
    have hm : matchFenceAt (a :: rest) = none := by
      have hl : leads jsonFenceLit (a :: rest) = false := by
        simp only [jsonFenceLit, leads, Bool.and_eq_false_iff]
        left
        simp [Ne.symm ha]
      simp [matchFenceAt, hl]
    simp only [searchFence, hm]
    exact ih (fun hb => h (List.mem_cons_of_mem a hb))

/-- fenceAfterWs_append: `\s*` followed by three backticks cannot match
when a whitespace-free-reachable, backtick-free block comes first. -/
theorem fenceAfterWs_append (l x : List Char) :
    (∃ c ∈ l, pyWs c = false) → '\x60' ∉ l → fenceAfterWs (l ++ x) = false := by
  induction l with
  | nil =>
    rintro ⟨c, hc, _⟩ _
    exact absurd hc (List.not_mem_nil c)
  | cons a t ih =>
    rintro ⟨c, hc, hcw⟩ hbt
    unfold fenceAfterWs
    by_cases hwa : pyWs a = true
    · rw [List.cons_append, List.dropWhile_cons, if_pos hwa]
      have hct : c ∈ t := by
        rcases List.mem_cons.mp hc with rfl | h
        · rw [hwa] at hcw
          exact absurd hcw (by simp)
        · exact h
      exact ih ⟨c, hct, hcw⟩ (fun hb => hbt (List.mem_cons_of_mem a hb))
    · rw [List.cons_append, List.dropWhile_cons, if_neg hwa]
      have ha : a ≠ '\x60' := fun e => hbt (e ▸ List.mem_cons_self a t)
      simp [fenceLit, leads, Ne.symm ha]

/-- findBody_append: when the body ends with its only trailing `}`,
contains no backtick, and the closing fence follows, the non-greedy
`.*?\}` captures exactly the body. -/
theorem findBody_append (x : List Char) (hx : fenceAfterWs x = true) :
    ∀ body : List Char, body ≠ [] → body.getLast? = some '\x7d' → '\x60' ∉ body →
      findBody (body ++ x) = some body := by
  intro body
  induction body with
  | nil => intro h; exact absurd rfl h
  | cons a t ih =>
    intro _ hlast hbt
    cases t with
    | nil =>
      have ha : a = '\x7d' := by simpa using hlast
      subst ha
      show findBody ('\x7d' :: ([] ++ x)) = some ['\x7d']
      rw [List.nil_append]
      unfold findBody
      rw [if_pos (by simp [hx])]
    | cons b u =>
      have hlast' : (b :: u).getLast? = some '\x7d' := by
        rw [← List.getLast?_cons_cons (a := a)]
        exact hlast
      have hbt' : '\x60' ∉ b :: u := fun hb => hbt (List.mem_cons_of_mem a hb)
      have hmem : '\x7d' ∈ b :: u := List.mem_of_getLast?_eq_some hlast'
      have hfw : fenceAfterWs ((b :: u) ++ x) = false :=
        fenceAfterWs_append (b :: u) x ⟨'\x7d', hmem, by decide⟩ hbt'
      show findBody (a :: ((b :: u) ++ x)) = some (a :: b :: u)
      unfold findBody
      rw [List.cons_append] at hfw
      rw [if_neg (by simp [hfw])]
      rw [ih (by simp) hlast' hbt']
      rfl

/-- matchFenceAt_wrap: the fence pattern anchored at the wrapping prefix
captures exactly the braced body. -/
theorem matchFenceAt_wrap (body tail : List Char)
    (h : findBody (body ++ tail) = some body) :
    matchFenceAt (jsonFenceLit ++ '\n' :: (('\x7b' :: body) ++ tail)) =
      some ('\x7b' :: body) := by
  unfold matchFenceAt
  rw [if_pos (leads_append jsonFenceLit _)]
  rw [List.drop_left' (show jsonFenceLit.length = 7 from rfl)]
  rw [List.dropWhile_cons, if_pos (by decide)]
  rw [List.cons_append, List.dropWhile_cons, if_neg (by decide)]
  show Option.map (fun b => '\x7b' :: b) (findBody (body ++ tail)) = some ('\x7b' :: body)
  rw [h]
  rfl

/-- searchFence_wrap: on "```json\n" ++ s ++ "\n```" with s a backtick-free
braced block, the regex search captures exactly s. -/
theorem searchFence_wrap (s : String) (hbt : '\x60' ∉ s.data)
    (hhead : s.data.head? = some '\x7b') (hlast : s.data.getLast? = some '\x7d') :
    searchFence ("\x60\x60\x60json\n" ++ s ++ "\n\x60\x60\x60").data = some s.data := by
  obtain ⟨body, hbody⟩ : ∃ body, s.data = '\x7b' :: body := by
    cases hd : s.data with
    | nil => rw [hd] at hhead; exact absurd hhead (by simp)
    | cons a t =>
      rw [hd] at hhead
      simp only [List.head?_cons, Option.some_inj] at hhead
      exact ⟨t, by rw [hhead]⟩
  have hbody_ne : body ≠ [] := by
    intro e
    rw [hbody, e] at hlast
    simp at hlast
  have hlastb : body.getLast? = some '\x7d' := by
    obtain ⟨b, u, rfl⟩ : ∃ b u, body = b :: u := by
      cases body with
      | nil => exact absurd rfl hbody_ne
      | cons b u => exact ⟨b, u, rfl⟩
    rw [hbody, List.getLast?_cons_cons] at hlast
    exact hlast
  have hbtb : '\x60' ∉ body := fun hb => hbt (hbody ▸ List.mem_cons_of_mem _ hb)
  have hfb : findBody (body ++ '\n' :: fenceLit) = some body :=
    findBody_append ('\n' :: fenceLit) (by decide) body hbody_ne hlastb hbtb
  have hdata : ("\x60\x60\x60json\n" ++ s ++ "\n\x60\x60\x60").data
      = jsonFenceLit ++ '\n' :: (s.data ++ '\n' :: fenceLit) := by
    rw [String.data_append, String.data_append]
    show (jsonFenceLit ++ ['\n']) ++ s.data ++ ('\n' :: fenceLit) = _
    simp [List.append_assoc]
  rw [hdata, hbody]
  have hm := matchFenceAt_wrap body ('\n' :: fenceLit) hfb
  simp only [jsonFenceLit, List.cons_append, List.nil_append] at hm ⊢
  simp only [searchFence, hm]

/-- mk_data: a string rebuilt from its own character list is itself. -/
theorem mk_data (s : String) : String.mk s.data = s := rfl

/-- pmRun_eq: the string case of parse_pm_json_output, as an equation. -/
theorem pmRun_eq (s : String) :
    pmRun s = if s = "" then .pdict [] else pmTryStr s := rfl

/-- C2 counterexample: for the JSON object s₀ = {"a": "}```"} (a value
containing a brace then three backticks), the fenced run stores {} while
the bare run stores the parsed dict, so fenced and bare disagree; and for
the string "```json {"a": "b"} ```", which is not parseable JSON, the
function stores the extracted dict rather than the empty dict. -/
theorem C2_counterexample :
    jsonLoads "\x7b\"a\": \"\x7d\x60\x60\x60\"\x7d" =
      some (.pdict [("a", .pstr "\x7d\x60\x60\x60")]) ∧
    pmRun ("\x60\x60\x60json\n" ++ "\x7b\"a\": \"\x7d\x60\x60\x60\"\x7d" ++ "\n\x60\x60\x60") =
      .pdict [] ∧
    pmRun "\x7b\"a\": \"\x7d\x60\x60\x60\"\x7d" = .pdict [("a", .pstr "\x7d\x60\x60\x60")] ∧
    (PyVal.pdict [] ≠ .pdict [("a", .pstr "\x7d\x60\x60\x60")]) ∧
    jsonLoads "\x60\x60\x60json \x7b\"a\": \"b\"\x7d \x60\x60\x60" = none ∧
    pmRun "\x60\x60\x60json \x7b\"a\": \"b\"\x7d \x60\x60\x60" = .pdict [("a", .pstr "b")] ∧
    (PyVal.pdict [("a", .pstr "b")] ≠ .pdict []) := by
  refine ⟨rfl, rfl, rfl, by simp, rfl, rfl, by simp⟩

/-- C2 amended: (1) for every string s that parses as a JSON object, starts
with "{", ends with "}" and contains no backtick character, running
parse_pm_json_output on s wrapped in ```json fences stores the same value
as running it on bare s — and when every value of the parsed object
survives the preview logging (in particular when all values are strings,
as in the PM schema), that value is the parsed dict; (2) for every
non-empty string on which both the fenced extraction and the direct parse
fail, the state is set to the empty dict (and nothing is raised: the
embedding is total). -/
theorem C2_amended_ok :
    (∀ (s : String) (kvs : List (String × PyVal)),
      jsonLoads s = some (.pdict kvs) →
      '\x60' ∉ s.data →
      s.data.head? = some '\x7b' →
      s.data.getLast? = some '\x7d' →
      pmRun ("\x60\x60\x60json\n" ++ s ++ "\n\x60\x60\x60") = pmRun s ∧
      (kvs.all (fun kv => previewOk kv.2) = true →
        pmRun ("\x60\x60\x60json\n" ++ s ++ "\n\x60\x60\x60") = .pdict kvs)) ∧
    (∀ s : String, s ≠ "" →
      (∀ g, searchFence s.data = some g → jsonLoads (String.mk g) = none) →
      jsonLoads s = none →
      pmRun s = .pdict []) := by
  constructor
  · intro s kvs hload hbt hhead hlast
    have hs : s ≠ "" := by
      intro e
      rw [e] at hhead
      simp at hhead
    have hwrapne : ("\x60\x60\x60json\n" ++ s ++ "\n\x60\x60\x60") ≠ "" := by
      intro e
      have := congrArg String.data e
      rw [String.data_append, String.data_append] at this
      simp at this
    have hwrap : pmRun ("\x60\x60\x60json\n" ++ s ++ "\n\x60\x60\x60") = pmPost (.pdict kvs) := by
      rw [pmRun_eq, if_neg hwrapne]
      unfold pmTryStr
      rw [searchFence_wrap s hbt hhead hlast]
      dsimp only
      rw [mk_data, hload]
    have hbare : pmRun s = pmPost (.pdict kvs) := by
      rw [pmRun_eq, if_neg hs]
      unfold pmTryStr
      rw [searchFence_no_backtick s.data hbt]
      dsimp only
      rw [hload]
    refine ⟨hwrap.trans hbare.symm, ?_⟩
    intro hall
    rw [hwrap]
    simp [pmPost, hall]
  · intro s hs hfence hload
    rw [pmRun_eq, if_neg hs]
    unfold pmTryStr
    cases hg : searchFence s.data with
    | some g =>
      dsimp only
      rw [hfence g hg]
    | none =>
      dsimp only
      rw [hload]

/-- C2 witness: the amended claim applied to the concrete object
{"a": "b"} (fenced equals bare and both store the parsed dict), and to the
unparseable string "zzz" (which yields the empty dict). -/
theorem C2_amended_witness :
    pmRun ("\x60\x60\x60json\n" ++ "\x7b\"a\": \"b\"\x7d" ++ "\n\x60\x60\x60") =
      pmRun "\x7b\"a\": \"b\"\x7d" ∧
    pmRun ("\x60\x60\x60json\n" ++ "\x7b\"a\": \"b\"\x7d" ++ "\n\x60\x60\x60") =
      .pdict [("a", .pstr "b")] ∧
    pmRun "zzz" = .pdict [] := by
  refine ⟨?_, ?_, ?_⟩
  · exact (C2_amended_ok.1 "\x7b\"a\": \"b\"\x7d" [("a", .pstr "b")] rfl (by decide) rfl rfl).1
  · exact (C2_amended_ok.1 "\x7b\"a\": \"b\"\x7d" [("a", .pstr "b")] rfl (by decide) rfl rfl).2 rfl
  · exact C2_amended_ok.2 "zzz" (by decide)
      (fun g hg => by
        rw [show searchFence ("zzz" : String).data = none from rfl] at hg
        exact Option.noConfusion hg)
      rfl

end StockAgent
